import Mathlib

/-!
Shallow embedding of the status-reconciliation and poll-scheduling core of
the Hafele Local MQTT integration, translated from
`custom_components/hafele_local_mqtt/light.py` and
`custom_components/hafele_local_mqtt/group.py`.

Conventions of the embedding:
* A Python `dict` holding JSON status fields is modelled extensionally as a
  function `String → Option JVal` (Python dict equality is key/value
  equality, and no claim depends on insertion order).
* Machine floats are modelled as exact rationals `ℚ`; `math.ceil` and
  Python `int()` truncation become `Int.ceil` / truncation on `ℚ`.
* Exceptions that the handlers catch (`json.JSONDecodeError`, `TypeError`)
  are modelled with `Except Unit`; a caught exception makes the handler
  return its input state unchanged, mirroring the `try/except` blocks.
* Real-time sleeps (`asyncio.sleep`) are elided; the wait loop of
  `_async_update_data` is modelled by the list of response payloads that
  arrive before the timeout elapses.
-/

/-- JSON leaf values that occur as fields of a status dictionary. -/
inductive JVal
  | num (q : ℚ)
  | str (s : String)
  | bool (b : Bool)
deriving DecidableEq

/-- A Python dict with string keys, modelled extensionally. -/
abbrev Dict : Type := String → Option JVal

def Dict.empty : Dict := fun _ => none

/-- Python `d[k] = v`. -/
def Dict.insert (d : Dict) (k : String) (v : JVal) : Dict :=
  fun k2 => if k2 = k then some v else d k2

/-- Python `d.update(n)`: fields present in `n` overwrite existing fields,
fields absent from `n` are preserved (light.py line 153). -/
def Dict.update (d n : Dict) : Dict :=
  fun k =>
    match n k with
    | some v => some v
    | none => d k

def lightnessKey : String := "lightness"
def onoffKey : String := "onoff"
def temperatureKey : String := "temperature"

/-- A decoded JSON document as it reaches `_on_status_message`: an object,
an array, or a bare number/boolean.  (A document that is itself a JSON
string only arises from a payload whose JSON parse already failed upstream,
so it is subsumed by the parse-failure payload case below.) -/
inductive JData
  | obj (d : Dict)
  | arr (elems : List JVal)
  | num (q : ℚ)
  | bool (b : Bool)

/-- Field lookup on stored status data: only dict-shaped data has fields. -/
def JData.lookupField : JData → String → Option JVal
  | .obj d, k => d k
  | _, _ => none

/-- A payload delivered to `_on_status_message`: either a raw string whose
`json.loads` may fail (`raw none` = `JSONDecodeError`), or an
already-decoded document passed through by the MQTT client. -/
inductive Payload
  | raw (parsed : Option JData)
  | decoded (j : JData)

/-- light.py lines 140-146: if `"lightness" in data`, set
`data["onoff"] = 1 if data["lightness"] > 0 else 0`.  Comparing a string
with `0` raises `TypeError` (modelled as `Except.error`); Python booleans
compare as integers (`True > 0` is `True`). -/
def deriveObj (d : Dict) : Except Unit Dict :=
  match d lightnessKey with
  | none => Except.ok d
  | some (JVal.num q) =>
      Except.ok (d.insert onoffKey (JVal.num (if 0 < q then 1 else 0)))
  | some (JVal.bool b) =>
      Except.ok (d.insert onoffKey (JVal.num (if b then 1 else 0)))
  | some (JVal.str _) => Except.error ()

/-- The `"lightness" in data` check and derived on/off update, on a whole
document.  On an array, `"lightness" in data` is membership and indexing a
list with a string raises `TypeError`; on a bare number or boolean the `in`
check itself raises `TypeError` (not iterable). -/
def deriveOnoff : JData → Except Unit JData
  | JData.obj d => (deriveObj d).map JData.obj
  | JData.arr l =>
      if JVal.str lightnessKey ∈ l then Except.error () else Except.ok (JData.arr l)
  | JData.num _ => Except.error ()
  | JData.bool _ => Except.error ()

/-- The mutable state of a `HafeleLightCoordinator` / `HafeleGroupCoordinator`
relevant to the claims: `self._status_data` and `self._status_received`
(the negation of the pending flag). -/
structure CoordState where
  status_data : JData
  status_received : Bool

/-- Coordinator construction (light.py lines 73-74): empty dict, no status
received. -/
def initCoordState : CoordState := ⟨JData.obj Dict.empty, false⟩

/-- light.py lines 149-158: merge new status into existing data; if either
side is not a dict, the new data replaces the stored data wholesale. -/
def mergeStatus (st : JData) (data : JData) : JData :=
  match st, data with
  | JData.obj d, JData.obj nd => JData.obj (Dict.update d nd)
  | _, _ => data

/-- light.py lines 136-139: a `str` payload goes through `json.loads`
(which may raise), any other payload is used as-is. -/
def parsePayload : Payload → Except Unit JData
  | Payload.raw none => Except.error ()
  | Payload.raw (some j) => Except.ok j
  | Payload.decoded j => Except.ok j

namespace HafeleLightCoordinator

/-- light.py lines 132-175, `_on_status_message`: parse, derive on/off from
lightness, merge, set `_status_received`; any caught exception leaves the
whole state unchanged. -/
def on_status_message (st : CoordState) (p : Payload) : CoordState :=
  match parsePayload p with
  | Except.error _ => st
  | Except.ok j =>
      match deriveOnoff j with
      | Except.error _ => st
      | Except.ok j2 =>
          { status_data := mergeStatus st.status_data j2, status_received := true }

/-- light.py lines 177-220, `_async_update_data`: reset the received flag,
copy the current data as `old_data`, publish the request, then wait; the
responses arriving before the timeout are processed by
`_on_status_message`.  On timeout the pre-request copy is returned, else
the merged data (or `{}` if it is not a dict). -/
def async_update_data (st : CoordState) (msgs : List Payload) : JData × CoordState :=
  let old_data : Dict :=
    match st.status_data with
    | JData.obj d => d
    | _ => Dict.empty
  let st1 : CoordState := { st with status_received := false }
  let st2 := msgs.foldl on_status_message st1
  if st2.status_received then
    (match st2.status_data with
     | JData.obj d => JData.obj d
     | _ => JData.obj Dict.empty, st2)
  else
    (JData.obj old_data, st2)

end HafeleLightCoordinator

namespace HafeleGroupCoordinator

/-- group.py lines 104-136, `_on_status_message`: identical to the light
handler but with no lightness-derived on/off step. -/
def on_status_message (st : CoordState) (p : Payload) : CoordState :=
  match parsePayload p with
  | Except.error _ => st
  | Except.ok j =>
      { status_data := mergeStatus st.status_data j, status_received := true }

end HafeleGroupCoordinator

/-- light.py lines 453-456. -/
def PollPriority.NORMAL : ℕ := 5

/-- light.py lines 453-456. -/
def PollPriority.HIGH : ℕ := 1

/-- The slice of a `HafeleLightEntity` the claims are about: device
address, `_priority` and `_last_known_lightness`. -/
structure HafeleLightEntity where
  device_addr : ℕ
  priority : ℕ
  last_known_lightness : Option ℚ
deriving DecidableEq

instance : Inhabited HafeleLightEntity := ⟨⟨0, PollPriority.NORMAL, none⟩⟩

/-- light.py lines 486-488, `__init__`: priority starts NORMAL, no last
known lightness. -/
def initEntity (addr : ℕ) : HafeleLightEntity :=
  ⟨addr, PollPriority.NORMAL, none⟩

def set_high_priority (e : HafeleLightEntity) : HafeleLightEntity :=
  { e with priority := PollPriority.HIGH }

def reset_priority (e : HafeleLightEntity) : HafeleLightEntity :=
  { e with priority := PollPriority.NORMAL }

/-- light.py lines 779-804, `force_manual_update` (the part affecting
entity state): escalate the priority to HIGH; sleeps and the optional extra
status request are elided. -/
def force_manual_update (e : HafeleLightEntity) : HafeleLightEntity :=
  set_high_priority e

/-- light.py lines 717-726: requested brightness `b` in 0..255 is converted
to `math.ceil(b / 255 * 100) / 100`, rounding up to the nearest 1%. -/
def turnOnLightness (b : ℕ) : ℚ := (⌈((b : ℚ) / 255) * 100⌉ : ℚ) / 100

/-- light.py `async_turn_on` (monochrome), restricted to the entity state:
with a requested brightness the rounded lightness is stored as last known;
the spawned `force_manual_update` task then escalates the priority. -/
def async_turn_on (e : HafeleLightEntity) (brightness : Option ℕ) : HafeleLightEntity :=
  force_manual_update
    (match brightness with
     | some b => { e with last_known_lightness := some (turnOnLightness b) }
     | none => e)

/-- light.py lines 806-825, `async_turn_off`, restricted to the entity
state: publishes power-off and escalates the priority via the spawned
`force_manual_update` task. -/
def async_turn_off (e : HafeleLightEntity) : HafeleLightEntity :=
  force_manual_update e

/-- light.py lines 620-627, the `brightness` accessor decode:
`int(lightness * 255)`, Python `int()` truncating toward zero. -/
def pyTrunc (q : ℚ) : ℤ := if 0 ≤ q then ⌊q⌋ else ⌈q⌉

def brightnessFromLightness (f : ℚ) : ℤ := pyTrunc (f * 255)

/-- light.py lines 387-398: partition the entities into HIGH-priority and
the rest by reading each entity's current priority. -/
def partitionHigh (es : List HafeleLightEntity) : List HafeleLightEntity × List HafeleLightEntity :=
  (es.filter (fun e => e.priority == PollPriority.HIGH),
   es.filter (fun e => !(e.priority == PollPriority.HIGH)))

/-- Observable actions of one iteration of `_rotational_polling_loop`. -/
inductive PollEvent
  | poll (a : ℕ)
  | resetPriority (a : ℕ)
  | sleep
deriving DecidableEq

/-- light.py lines 403-418: poll every HIGH-priority entity in order, reset
its priority right after its poll, then sleep one inter-poll interval. -/
def highTrace : List HafeleLightEntity → List PollEvent
  | [] => []
  | e :: t =>
      PollEvent.poll e.device_addr :: PollEvent.resetPriority e.device_addr ::
        PollEvent.sleep :: highTrace t

/-- light.py lines 419-435: poll the single NORMAL entity at the round-robin
cursor (modulo the NORMAL set size), then sleep. -/
def normalSlot (normals : List HafeleLightEntity) (rr : ℕ) : List PollEvent :=
  if normals.isEmpty then []
  else
    [PollEvent.poll ((normals.getD (rr % normals.length) default).device_addr),
     PollEvent.sleep]

/-- The event trace of one outer iteration of the rotational loop
(light.py lines 385-435); an empty entity set just sleeps and retries. -/
def cycleTrace (es : List HafeleLightEntity) (rr : ℕ) : List PollEvent :=
  if es.isEmpty then [PollEvent.sleep]
  else highTrace (partitionHigh es).1 ++ normalSlot (partitionHigh es).2 rr

/-- `entity.reset_priority()` applied to every HIGH entity of the
iteration (light.py line 412). -/
def resetHighs (es : List HafeleLightEntity) : List HafeleLightEntity :=
  es.map (fun e =>
    if e.priority = PollPriority.HIGH then { e with priority := PollPriority.NORMAL } else e)

/-- Entity states and round-robin cursor after one outer iteration: all
HIGH entities are reset, and `rr_index` advances by one iff a NORMAL entity
was polled (light.py line 429). -/
def cycleNext (es : List HafeleLightEntity) (rr : ℕ) : List HafeleLightEntity × ℕ :=
  (resetHighs es, if (partitionHigh es).2.isEmpty then rr else rr + 1)

/-- `n` consecutive outer iterations of the rotational loop. -/
def runCycles : List HafeleLightEntity → ℕ → ℕ → List PollEvent
  | _, _, 0 => []
  | es, rr, Nat.succ n =>
      cycleTrace es rr ++ runCycles (cycleNext es rr).1 (cycleNext es rr).2 n

/-- The addresses polled in a trace, in order. -/
def polledAddrs (t : List PollEvent) : List ℕ :=
  t.filterMap (fun e =>
    match e with
    | PollEvent.poll a => some a
    | _ => none)

/-- Concrete snapshot `{"onoff": 1}` used by witnesses. -/
def wSnapOn : Dict := Dict.insert Dict.empty onoffKey (JVal.num 1)

/-- Concrete snapshot `{"onoff": 1, "lightness": 0.5}`. -/
def wSnapOnHalf : Dict := Dict.insert wSnapOn lightnessKey (JVal.num (1 / 2))

/-- Concrete payload `{"lightness": 0.0}`. -/
def wPayloadL0 : Dict := Dict.insert Dict.empty lightnessKey (JVal.num 0)

/-- Concrete payload `{"lightness": 1.0}`. -/
def wPayloadL1 : Dict := Dict.insert Dict.empty lightnessKey (JVal.num 1)

/-- Concrete payload `{"lightness": 0.5}`. -/
def wPayloadLhalf : Dict := Dict.insert Dict.empty lightnessKey (JVal.num (1 / 2))

/-- Concrete payload `{"temperature": 3000}`. -/
def wPayloadTemp : Dict := Dict.insert Dict.empty temperatureKey (JVal.num 3000)

/-- `wPayloadLhalf` after the derived on/off step. -/
def wDerivedLhalf : Dict := Dict.insert wPayloadLhalf onoffKey (JVal.num 1)

/-! ### Helper lemmas -/

theorem onoffKey_ne_lightnessKey : onoffKey ≠ lightnessKey := by decide

theorem Dict.update_apply (d n : Dict) (k : String) :
    Dict.update d n k = match n k with | some v => some v | none => d k := rfl

theorem Dict.update_update_self (d n : Dict) :
    Dict.update (Dict.update d n) n = Dict.update d n := by
  funext k
  cases h : n k <;> simp [Dict.update, h]

theorem Dict.update_self (d : Dict) : Dict.update d d = d := by
  funext k
  cases h : d k <;> simp [Dict.update, h]

theorem mergeStatus_idem (a b : JData) :
    mergeStatus (mergeStatus a b) b = mergeStatus a b := by
  cases a <;> cases b <;>
    simp [mergeStatus, Dict.update_update_self, Dict.update_self]

theorem deriveObj_preserves (d d2 : Dict) (h : deriveObj d = Except.ok d2)
    (k : String) (hk : k ≠ onoffKey) : d2 k = d k := by
  unfold deriveObj at h
  cases hl : d lightnessKey with
  | none =>
      rw [hl] at h
      cases h
      rfl
  | some v =>
      cases v with
      | num q =>
          rw [hl] at h
          cases h
          simp [Dict.insert, hk]
      | bool b =>
          rw [hl] at h
          cases h
          simp [Dict.insert, hk]
      | str s => rw [hl] at h; cases h

theorem deriveObj_isSome (d d2 : Dict) (h : deriveObj d = Except.ok d2)
    (k : String) (hk : d k ≠ none) : d2 k ≠ none := by
  by_cases hko : k = onoffKey
  · subst hko
    unfold deriveObj at h
    cases hl : d lightnessKey with
    | none => rw [hl] at h; cases h; exact hk
    | some v =>
        cases v with
        | num q => rw [hl] at h; cases h; simp [Dict.insert]
        | bool b => rw [hl] at h; cases h; simp [Dict.insert]
        | str s => rw [hl] at h; cases h
  · rw [deriveObj_preserves d d2 h k hko]
    exact hk

/-! ### Claim theorems -/

/-- Claim C4: for every requested brightness `b` in `[0, 255]`, the
round-up-to-nearest-1% conversion of `async_turn_on` followed by the
`brightness` accessor's decode (`int(lightness * 255)`) never undershoots
the requested brightness.  Arithmetic is modelled exactly over `ℚ`. -/
theorem brightness_roundtrip_no_undershoot (b : ℕ) (hb : b ≤ 255) :
    (b : ℤ) ≤ brightnessFromLightness (turnOnLightness b) := by
  have hceil : ((b : ℚ) / 255) * 100 ≤ (⌈((b : ℚ) / 255) * 100⌉ : ℚ) := Int.le_ceil _
  have h0 : (0 : ℚ) ≤ ((b : ℚ) / 255) * 100 := by positivity
  have hc0 : (0 : ℚ) ≤ (⌈((b : ℚ) / 255) * 100⌉ : ℚ) := le_trans h0 hceil
  have hf : (0 : ℚ) ≤ turnOnLightness b * 255 := by
    unfold turnOnLightness
    have : (0 : ℚ) ≤ (⌈((b : ℚ) / 255) * 100⌉ : ℚ) / 100 := by positivity
    nlinarith
  unfold brightnessFromLightness pyTrunc
  rw [if_pos hf, Int.le_floor]
  unfold turnOnLightness
  push_cast
  nlinarith [hceil]

/-- Witness for C4 at the spec's own example `b = 128`: the decoded
brightness is at least the requested one. -/
theorem brightness_roundtrip_no_undershoot_witness :
    (128 : ℤ) ≤ brightnessFromLightness (turnOnLightness 128) :=
  brightness_roundtrip_no_undershoot 128 (by norm_num)

/-- Claim C8: a payload whose decoding fails — a string that is not valid
JSON, or a decoded value on which the `"lightness"` check or lookup raises
`TypeError` — leaves the whole coordinator state unchanged: the snapshot is
untouched and `_status_received` keeps its value, so the pending flag is
not cleared early.  The handler is a total function, so nothing is raised
to the caller. -/
theorem malformed_payload_discarded (st : CoordState) (j : JData) :
    HafeleLightCoordinator.on_status_message st (Payload.raw none) = st
    ∧ (deriveOnoff j = Except.error () →
        HafeleLightCoordinator.on_status_message st (Payload.decoded j) = st) := by
  constructor
  · rfl
  · intro h
    unfold HafeleLightCoordinator.on_status_message
    simp [parsePayload, h]

/-- Witness for C8: a bare-number payload (membership test raises
`TypeError`) leaves the initial state unchanged. -/
theorem malformed_payload_discarded_witness :
    HafeleLightCoordinator.on_status_message initCoordState (Payload.decoded (JData.num 5))
      = initCoordState :=
  (malformed_payload_discarded initCoordState (JData.num 5)).2 rfl

theorem lightnessKey_ne_onoffKey : lightnessKey ≠ onoffKey := by decide

theorem Dict.insert_same (d : Dict) (k : String) (v : JVal) :
    Dict.insert d k v k = some v := by simp [Dict.insert]

theorem Dict.insert_other (d : Dict) (k : String) (v : JVal) (k2 : String)
    (h : k2 ≠ k) : Dict.insert d k v k2 = d k2 := by simp [Dict.insert, h]

theorem Dict.update_some (d n : Dict) (k : String) (v : JVal)
    (h : n k = some v) : Dict.update d n k = some v := by simp [Dict.update, h]

theorem Dict.update_none (d n : Dict) (k : String) (h : n k = none) :
    Dict.update d n k = d k := by simp [Dict.update, h]

theorem light_on_status_message_ok (st : CoordState) (j j2 : JData)
    (h : deriveOnoff j = Except.ok j2) :
    HafeleLightCoordinator.on_status_message st (Payload.decoded j)
      = ⟨mergeStatus st.status_data j2, true⟩ := by
  unfold HafeleLightCoordinator.on_status_message
  simp [parsePayload, h]

/-- Claim C1: whenever a status payload handled by the light coordinator's
`_on_status_message` contains a numeric `"lightness"` field, the resulting
snapshot's `"onoff"` field is `1` iff the lightness is positive and `0`
otherwise, regardless of any explicit `"onoff"` field in the same payload;
and concretely, a status message `{"lightness": 0.0}` arriving on snapshot
`{"onoff": 1, "lightness": 0.5}` yields snapshot
`{"onoff": 0, "lightness": 0.0}` and nothing else. -/
theorem lightness_derived_onoff_overwrite :
    (∀ (st : CoordState) (d : Dict) (q : ℚ), d lightnessKey = some (JVal.num q) →
      ∃ m : Dict,
        (HafeleLightCoordinator.on_status_message st
            (Payload.decoded (JData.obj d))).status_data = JData.obj m
        ∧ m onoffKey = some (JVal.num (if 0 < q then 1 else 0))
        ∧ m lightnessKey = some (JVal.num q))
    ∧ (∃ m : Dict,
        (HafeleLightCoordinator.on_status_message ⟨JData.obj wSnapOnHalf, false⟩
            (Payload.decoded (JData.obj wPayloadL0))).status_data = JData.obj m
        ∧ m onoffKey = some (JVal.num 0)
        ∧ m lightnessKey = some (JVal.num 0)
        ∧ ∀ k, k ≠ onoffKey → k ≠ lightnessKey → m k = none) := by
  constructor
  · intro st d q hd
    have hder : deriveOnoff (JData.obj d)
        = Except.ok (JData.obj (d.insert onoffKey (JVal.num (if 0 < q then 1 else 0)))) := by
      simp [deriveOnoff, deriveObj, hd, Except.map]
    rw [light_on_status_message_ok st _ _ hder]
    have hin : (d.insert onoffKey (JVal.num (if 0 < q then 1 else 0))) lightnessKey
        = some (JVal.num q) := by
      rw [Dict.insert_other _ _ _ _ lightnessKey_ne_onoffKey, hd]
    cases hsd : st.status_data with
    | obj s =>
        refine ⟨Dict.update s (d.insert onoffKey (JVal.num (if 0 < q then 1 else 0))),
          by simp [mergeStatus], ?_, ?_⟩
        · exact Dict.update_some _ _ _ _ (Dict.insert_same _ _ _)
        · exact Dict.update_some _ _ _ _ hin
    | arr l =>
        exact ⟨d.insert onoffKey (JVal.num (if 0 < q then 1 else 0)),
          by simp [mergeStatus], Dict.insert_same _ _ _, hin⟩
    | num q2 =>
        exact ⟨d.insert onoffKey (JVal.num (if 0 < q then 1 else 0)),
          by simp [mergeStatus], Dict.insert_same _ _ _, hin⟩
    | bool b =>
        exact ⟨d.insert onoffKey (JVal.num (if 0 < q then 1 else 0)),
          by simp [mergeStatus], Dict.insert_same _ _ _, hin⟩
  · have h0 : wPayloadL0 lightnessKey = some (JVal.num 0) := Dict.insert_same _ _ _
    have hder : deriveOnoff (JData.obj wPayloadL0)
        = Except.ok (JData.obj (wPayloadL0.insert onoffKey (JVal.num 0))) := by
      simp [deriveOnoff, deriveObj, h0, Except.map]
    refine ⟨Dict.update wSnapOnHalf (Dict.insert wPayloadL0 onoffKey (JVal.num 0)),
      ?_, ?_, ?_, ?_⟩
    · rw [light_on_status_message_ok _ _ _ hder]
      simp [mergeStatus]
    · exact Dict.update_some _ _ _ _ (Dict.insert_same _ _ _)
    · refine Dict.update_some _ _ _ _ ?_
      rw [Dict.insert_other _ _ _ _ lightnessKey_ne_onoffKey]
      exact h0
    · intro k h1 h2
      simp [Dict.update, Dict.insert, wSnapOnHalf, wSnapOn, wPayloadL0, Dict.empty,
        h1, h2]

/-- Witness for C1: applying the general part at the concrete payload
`{"lightness": 1.0}` on the initial (empty) snapshot. -/
theorem lightness_derived_onoff_overwrite_witness :
    ∃ m : Dict,
      (HafeleLightCoordinator.on_status_message initCoordState
          (Payload.decoded (JData.obj wPayloadL1))).status_data = JData.obj m
      ∧ m onoffKey = some (JVal.num (if 0 < (1 : ℚ) then 1 else 0))
      ∧ m lightnessKey = some (JVal.num 1) :=
  lightness_derived_onoff_overwrite.1 initCoordState wPayloadL1 1 (Dict.insert_same _ _ _)

/-- Claim C9 (amended): as long as a response payload decodes to a JSON
object and the stored snapshot is an object, `_on_status_message` performs
a field-wise merge that preserves every field the (derived) payload does
not mention.  (The original claim fails: a payload decoding to a non-dict
value replaces the snapshot wholesale — see the counterexample.) -/
theorem snapshot_merge_amended (st : CoordState) (s d d2 : Dict)
    (hst : st.status_data = JData.obj s) (hder : deriveObj d = Except.ok d2) :
    (HafeleLightCoordinator.on_status_message st
        (Payload.decoded (JData.obj d))).status_data = JData.obj (Dict.update s d2)
    ∧ ∀ k, d2 k = none → Dict.update s d2 k = s k := by
  have hder2 : deriveOnoff (JData.obj d) = Except.ok (JData.obj d2) := by
    simp [deriveOnoff, hder, Except.map]
  constructor
  · rw [light_on_status_message_ok st _ _ hder2, hst]
    simp [mergeStatus]
  · intro k hk
    exact Dict.update_none _ _ _ hk

/-- Witness for C9's amended theorem: merging the object payload
`{"temperature": 3000}` into snapshot `{"onoff": 1}` is a field-preserving
merge. -/
theorem snapshot_merge_amended_witness :
    (HafeleLightCoordinator.on_status_message ⟨JData.obj wSnapOn, false⟩
        (Payload.decoded (JData.obj wPayloadTemp))).status_data
      = JData.obj (Dict.update wSnapOn wPayloadTemp)
    ∧ ∀ k, wPayloadTemp k = none → Dict.update wSnapOn wPayloadTemp k = wSnapOn k :=
  snapshot_merge_amended ⟨JData.obj wSnapOn, false⟩ wSnapOn wPayloadTemp wPayloadTemp
    rfl rfl

/-- Counterexample to claim C9 as stated: a status payload that decodes to
the JSON array `[]` (reachable: the MQTT client hands the decoded list to
the handler) replaces the snapshot `{"onoff": 1}` wholesale — the `"onoff"`
field is not preserved, so not every mutation is a field-wise merge. -/
theorem snapshot_wholesale_replacement_cex :
    (HafeleLightCoordinator.on_status_message ⟨JData.obj wSnapOn, false⟩
        (Payload.decoded (JData.arr []))).status_data = JData.arr []
    ∧ JData.lookupField
        (HafeleLightCoordinator.on_status_message ⟨JData.obj wSnapOn, false⟩
          (Payload.decoded (JData.arr []))).status_data onoffKey = none
    ∧ JData.lookupField (JData.obj wSnapOn) onoffKey = some (JVal.num 1) := by
  refine ⟨rfl, rfl, ?_⟩
  show wSnapOn onoffKey = some (JVal.num 1)
  exact Dict.insert_same _ _ _

/-- Claim C10: the group coordinator's `_on_status_message` applies no
lightness-derived on/off inference: merging any object payload leaves
`"onoff"` exactly as the payload (if present) or the prior snapshot
supplies it; concretely, a group payload `{"lightness": 0.0}` arriving on
a group snapshot with `"onoff" = 1` leaves `"onoff" = 1`. -/
theorem group_no_onoff_inference :
    (∀ (st : CoordState) (s d : Dict), st.status_data = JData.obj s →
      (HafeleGroupCoordinator.on_status_message st
          (Payload.decoded (JData.obj d))).status_data = JData.obj (Dict.update s d)
      ∧ (d onoffKey = none → Dict.update s d onoffKey = s onoffKey))
    ∧ JData.lookupField
        (HafeleGroupCoordinator.on_status_message ⟨JData.obj wSnapOn, false⟩
          (Payload.decoded (JData.obj wPayloadL0))).status_data onoffKey
        = some (JVal.num 1) := by
  constructor
  · intro st s d hst
    constructor
    · unfold HafeleGroupCoordinator.on_status_message
      rw [show parsePayload (Payload.decoded (JData.obj d)) = Except.ok (JData.obj d)
        from rfl]
      rw [hst]
      simp [mergeStatus]
    · intro hk
      exact Dict.update_none _ _ _ hk
  · show Dict.update wSnapOn wPayloadL0 onoffKey = some (JVal.num 1)
    rw [Dict.update_none _ _ _ (by
      show Dict.insert Dict.empty lightnessKey (JVal.num 0) onoffKey = none
      rw [Dict.insert_other _ _ _ _ (Ne.symm lightnessKey_ne_onoffKey)]
      rfl)]
    exact Dict.insert_same _ _ _

/-- Witness for C10: applying the general part to the concrete group
snapshot `{"onoff": 1}` and payload `{"lightness": 0.0}`. -/
theorem group_no_onoff_inference_witness :
    (HafeleGroupCoordinator.on_status_message ⟨JData.obj wSnapOn, false⟩
        (Payload.decoded (JData.obj wPayloadL0))).status_data
      = JData.obj (Dict.update wSnapOn wPayloadL0) :=
  (group_no_onoff_inference.1 ⟨JData.obj wSnapOn, false⟩ wSnapOn wPayloadL0 rfl).1

theorem light_on_status_message_ok2 (st : CoordState) (p : Payload) (j j2 : JData)
    (hp : parsePayload p = Except.ok j) (hj : deriveOnoff j = Except.ok j2) :
    HafeleLightCoordinator.on_status_message st p
      = ⟨mergeStatus st.status_data j2, true⟩ := by
  simp only [HafeleLightCoordinator.on_status_message, hp, hj]

theorem light_on_status_message_err_parse (st : CoordState) (p : Payload)
    (hp : parsePayload p = Except.error ()) :
    HafeleLightCoordinator.on_status_message st p = st := by
  simp only [HafeleLightCoordinator.on_status_message, hp]

theorem light_on_status_message_err_derive (st : CoordState) (p : Payload) (j : JData)
    (hp : parsePayload p = Except.ok j) (hj : deriveOnoff j = Except.error ()) :
    HafeleLightCoordinator.on_status_message st p = st := by
  simp only [HafeleLightCoordinator.on_status_message, hp, hj]

theorem light_on_status_message_noop (st : CoordState) (p : Payload)
    (h : (HafeleLightCoordinator.on_status_message st p).status_received = false) :
    HafeleLightCoordinator.on_status_message st p = st := by
  cases hp : parsePayload p with
  | error e =>
      cases e
      exact light_on_status_message_err_parse st p hp
  | ok j =>
      cases hj : deriveOnoff j with
      | error e =>
          cases e
          exact light_on_status_message_err_derive st p j hp hj
      | ok j2 =>
          rw [light_on_status_message_ok2 st p j j2 hp hj] at h
          simp at h

theorem light_on_status_message_mono (st : CoordState) (p : Payload)
    (h : st.status_received = true) :
    (HafeleLightCoordinator.on_status_message st p).status_received = true := by
  cases hp : parsePayload p with
  | error e =>
      cases e
      rw [light_on_status_message_err_parse st p hp]
      exact h
  | ok j =>
      cases hj : deriveOnoff j with
      | error e =>
          cases e
          rw [light_on_status_message_err_derive st p j hp hj]
          exact h
      | ok j2 => rw [light_on_status_message_ok2 st p j j2 hp hj]

theorem light_foldl_mono (msgs : List Payload) (st : CoordState)
    (h : st.status_received = true) :
    (msgs.foldl HafeleLightCoordinator.on_status_message st).status_received = true := by
  induction msgs generalizing st with
  | nil => exact h
  | cons p t ih =>
      rw [List.foldl_cons]
      exact ih _ (light_on_status_message_mono st p h)

theorem light_foldl_noop (msgs : List Payload) (st : CoordState)
    (h : (msgs.foldl HafeleLightCoordinator.on_status_message st).status_received
         = false) :
    msgs.foldl HafeleLightCoordinator.on_status_message st = st := by
  induction msgs generalizing st with
  | nil => rfl
  | cons p t ih =>
      rw [List.foldl_cons] at h ⊢
      have hstep : (HafeleLightCoordinator.on_status_message st p).status_received
          = false := by
        cases hx : (HafeleLightCoordinator.on_status_message st p).status_received
        · rfl
        · rw [light_foldl_mono t _ hx] at h
          simp at h
      rw [light_on_status_message_noop st p hstep] at h ⊢
      exact ih st h

/-- Claim C2: when no response is received before the polling timeout (the
received flag is still clear after every message of the wait window has
been handled), `_async_update_data` returns a snapshot exactly equal to the
snapshot taken immediately before the request was published — no field
added, removed, or changed — and the stored snapshot is unchanged too. -/
theorem timeout_returns_prerequest_snapshot (st : CoordState) (msgs : List Payload)
    (d : Dict) (hd : st.status_data = JData.obj d)
    (htimeout : (HafeleLightCoordinator.async_update_data st msgs).2.status_received
        = false) :
    (HafeleLightCoordinator.async_update_data st msgs).1 = JData.obj d
    ∧ (HafeleLightCoordinator.async_update_data st msgs).2.status_data
        = JData.obj d := by
  have h2 : (msgs.foldl HafeleLightCoordinator.on_status_message
      { st with status_received := false }).status_received = false := by
    cases hx : (msgs.foldl HafeleLightCoordinator.on_status_message
        { st with status_received := false }).status_received
    · rfl
    · simp only [HafeleLightCoordinator.async_update_data, hx, if_true] at htimeout
      exact htimeout
  have hnoop := light_foldl_noop msgs { st with status_received := false } h2
  rw [hd] at h2 hnoop
  simp only [HafeleLightCoordinator.async_update_data, h2, hnoop, hd]
  simp

/-- Witness for C2: a single undecodable raw payload in the wait window of
a poll over the snapshot `{"onoff": 1}` leaves the returned and stored
snapshots at the pre-request value. -/
theorem timeout_returns_prerequest_snapshot_witness :
    (HafeleLightCoordinator.async_update_data ⟨JData.obj wSnapOn, true⟩
        [Payload.raw none]).1 = JData.obj wSnapOn
    ∧ (HafeleLightCoordinator.async_update_data ⟨JData.obj wSnapOn, true⟩
        [Payload.raw none]).2.status_data = JData.obj wSnapOn :=
  timeout_returns_prerequest_snapshot ⟨JData.obj wSnapOn, true⟩ [Payload.raw none]
    wSnapOn rfl rfl

theorem lightnessKey_ne_temperatureKey : lightnessKey ≠ temperatureKey := by decide

/-- Claim C3: the partial-status merge of `_on_status_message` is
idempotent — handling the same response payload twice yields the same
coordinator state as handling it once — and union-forming: handling object
payload `A` then object payload `B` that shares no raw field with `A`
yields the union of the (derived) fields contributed by both, `B`'s fields
winning, `A`'s surviving, and fields absent from both preserved from the
prior snapshot. -/
theorem merge_idempotent_union :
    (∀ (st : CoordState) (p : Payload),
      HafeleLightCoordinator.on_status_message
          (HafeleLightCoordinator.on_status_message st p) p
        = HafeleLightCoordinator.on_status_message st p)
    ∧ (∀ (st : CoordState) (s A B A2 B2 : Dict),
        st.status_data = JData.obj s →
        deriveObj A = Except.ok A2 →
        deriveObj B = Except.ok B2 →
        (∀ k, A k ≠ none → B k = none) →
        (HafeleLightCoordinator.on_status_message
            (HafeleLightCoordinator.on_status_message st
              (Payload.decoded (JData.obj A)))
            (Payload.decoded (JData.obj B))).status_data
          = JData.obj (Dict.update (Dict.update s A2) B2)
        ∧ (∀ k, k ≠ onoffKey → A k ≠ none →
            Dict.update (Dict.update s A2) B2 k = A2 k)
        ∧ (∀ k, B k ≠ none → Dict.update (Dict.update s A2) B2 k = B2 k)
        ∧ (∀ k, k ≠ onoffKey → A k = none → B k = none →
            Dict.update (Dict.update s A2) B2 k = s k)) := by
  constructor
  · intro st p
    cases hp : parsePayload p with
    | error e =>
        cases e
        rw [light_on_status_message_err_parse st p hp]
        exact light_on_status_message_err_parse st p hp
    | ok j =>
        cases hj : deriveOnoff j with
        | error e =>
            cases e
            rw [light_on_status_message_err_derive st p j hp hj]
            exact light_on_status_message_err_derive st p j hp hj
        | ok j2 =>
            rw [light_on_status_message_ok2 st p j j2 hp hj,
              light_on_status_message_ok2 _ p j j2 hp hj]
            simp only [mergeStatus_idem]
  · intro st s A B A2 B2 hst hA hB hdisj
    have hA2 : deriveOnoff (JData.obj A) = Except.ok (JData.obj A2) := by
      simp only [deriveOnoff, hA, Except.map]
    have hB2 : deriveOnoff (JData.obj B) = Except.ok (JData.obj B2) := by
      simp only [deriveOnoff, hB, Except.map]
    refine ⟨?_, ?_, ?_, ?_⟩
    · rw [light_on_status_message_ok2 st (Payload.decoded (JData.obj A))
          (JData.obj A) (JData.obj A2) rfl hA2,
        light_on_status_message_ok2 _ (Payload.decoded (JData.obj B))
          (JData.obj B) (JData.obj B2) rfl hB2]
      rw [hst]
      simp [mergeStatus]
    · intro k hk hAk
      have hB2k : B2 k = none := by
        rw [deriveObj_preserves B B2 hB k hk]
        exact hdisj k hAk
      rw [Dict.update_none _ _ _ hB2k]
      have hA2k : A2 k ≠ none := by
        rw [deriveObj_preserves A A2 hA k hk]
        exact hAk
      cases hv : A2 k with
      | none => exact absurd hv hA2k
      | some v => exact Dict.update_some _ _ _ _ hv
    · intro k hBk
      have hB2k : B2 k ≠ none := deriveObj_isSome B B2 hB k hBk
      cases hv : B2 k with
      | none => exact absurd hv hB2k
      | some v => exact Dict.update_some _ _ _ _ hv
    · intro k hk hAk hBk
      have hB2k : B2 k = none := by
        rw [deriveObj_preserves B B2 hB k hk]
        exact hBk
      have hA2k : A2 k = none := by
        rw [deriveObj_preserves A A2 hA k hk]
        exact hAk
      rw [Dict.update_none _ _ _ hB2k, Dict.update_none _ _ _ hA2k]

/-- Witness for C3: merging `{"lightness": 0.5}` then the field-disjoint
`{"temperature": 3000}` into snapshot `{"onoff": 1}` gives the union of
the derived contributions of both payloads. -/
theorem merge_idempotent_union_witness :
    (HafeleLightCoordinator.on_status_message
        (HafeleLightCoordinator.on_status_message ⟨JData.obj wSnapOn, false⟩
          (Payload.decoded (JData.obj wPayloadLhalf)))
        (Payload.decoded (JData.obj wPayloadTemp))).status_data
      = JData.obj (Dict.update (Dict.update wSnapOn wDerivedLhalf) wPayloadTemp) :=
  (merge_idempotent_union.2 ⟨JData.obj wSnapOn, false⟩ wSnapOn wPayloadLhalf
    wPayloadTemp wDerivedLhalf wPayloadTemp rfl
    (by
      show deriveObj wPayloadLhalf = Except.ok wDerivedLhalf
      unfold deriveObj
      rw [show wPayloadLhalf lightnessKey = some (JVal.num (1/2)) from
        Dict.insert_same _ _ _]
      norm_num [wDerivedLhalf])
    rfl
    (by
      intro k hk
      by_cases h : k = lightnessKey
      · subst h
        show Dict.insert Dict.empty temperatureKey (JVal.num 3000) lightnessKey = none
        rw [Dict.insert_other _ _ _ _ lightnessKey_ne_temperatureKey]
        rfl
      · exfalso
        apply hk
        show Dict.insert Dict.empty lightnessKey (JVal.num (1/2)) k = none
        rw [Dict.insert_other _ _ _ _ h]
        rfl)).1

theorem partitionHigh_allNormal (es : List HafeleLightEntity)
    (h : ∀ e ∈ es, e.priority = PollPriority.NORMAL) :
    partitionHigh es = ([], es) := by
  unfold partitionHigh
  simp only [Prod.mk.injEq]
  constructor
  · rw [List.filter_eq_nil_iff]
    intro e he
    rw [h e he]
    decide
  · rw [List.filter_eq_self]
    intro e he
    rw [h e he]
    decide

theorem resetHighs_allNormal (es : List HafeleLightEntity)
    (h : ∀ e ∈ es, e.priority = PollPriority.NORMAL) :
    resetHighs es = es := by
  unfold resetHighs
  have hcongr : es.map (fun e =>
      if e.priority = PollPriority.HIGH
      then { e with priority := PollPriority.NORMAL } else e) = es.map id :=
    List.map_congr_left (by
      intro e he
      rw [h e he]
      rw [if_neg (by decide)]
      rfl)
  rw [hcongr, List.map_id]

theorem cycleNext_allNormal (es : List HafeleLightEntity) (rr : ℕ)
    (h : ∀ e ∈ es, e.priority = PollPriority.NORMAL) (hne : es ≠ []) :
    cycleNext es rr = (es, rr + 1) := by
  unfold cycleNext
  rw [partitionHigh_allNormal es h, resetHighs_allNormal es h]
  simp [List.isEmpty_eq_false.mpr hne]

theorem cycleTrace_allNormal (es : List HafeleLightEntity) (rr : ℕ)
    (h : ∀ e ∈ es, e.priority = PollPriority.NORMAL) (hne : es ≠ []) :
    cycleTrace es rr
      = [PollEvent.poll ((es.getD (rr % es.length) default).device_addr),
         PollEvent.sleep] := by
  unfold cycleTrace
  rw [if_neg (by simp [List.isEmpty_eq_false.mpr hne])]
  rw [partitionHigh_allNormal es h]
  show highTrace [] ++ normalSlot es rr = _
  unfold normalSlot
  rw [if_neg (by simp [List.isEmpty_eq_false.mpr hne])]
  simp [highTrace]

theorem polledAddrs_append (s t : List PollEvent) :
    polledAddrs (s ++ t) = polledAddrs s ++ polledAddrs t :=
  List.filterMap_append s t _

theorem runCycles_allNormal (es : List HafeleLightEntity)
    (h : ∀ e ∈ es, e.priority = PollPriority.NORMAL) (hne : es ≠ [])
    (n : ℕ) : ∀ rr : ℕ,
    polledAddrs (runCycles es rr n)
      = (List.range n).map
          (fun i => (es.getD ((rr + i) % es.length) default).device_addr) := by
  induction n with
  | zero => intro rr; rfl
  | succ k ih =>
      intro rr
      show polledAddrs (cycleTrace es rr
        ++ runCycles (cycleNext es rr).1 (cycleNext es rr).2 k) = _
      rw [cycleNext_allNormal es rr h hne]
      rw [polledAddrs_append, cycleTrace_allNormal es rr h hne]
      show [(es.getD (rr % es.length) default).device_addr]
        ++ polledAddrs (runCycles es (rr + 1) k) = _
      rw [ih (rr + 1)]
      rw [List.range_succ_eq_map]
      simp only [List.map_cons, List.map_map, List.singleton_append]
      congr 1
      apply List.map_congr_left
      intro i hi
      simp only [Function.comp]
      have harith : rr + 1 + i = rr + Nat.succ i := by omega
      rw [harith]

/-- Claim C5: under the rotational policy, if all `N` entities stay NORMAL
priority and polls succeed, then over `N` consecutive NORMAL-slot cycles
each entity is polled exactly once (the polled addresses are a permutation
of the entity addresses), and the round-robin cursor advances by one
position per cycle. -/
theorem rotational_round_robin_fairness (es : List HafeleLightEntity) (rr N : ℕ)
    (hN : es.length = N) (hpos : 0 < N)
    (hnorm : ∀ e ∈ es, e.priority = PollPriority.NORMAL) :
    List.Perm (polledAddrs (runCycles es rr N))
        (es.map HafeleLightEntity.device_addr)
    ∧ (cycleNext es rr).2 = rr + 1 := by
  have hne : es ≠ [] := by
    intro hemp
    rw [hemp] at hN
    simp at hN
    omega
  constructor
  · rw [runCycles_allNormal es hnorm hne N rr]
    have key : (List.range N).map
        (fun i => (es.getD ((rr + i) % es.length) default).device_addr)
        = (es.map HafeleLightEntity.device_addr).rotate rr := by
      apply List.ext_get
      · simp [List.length_rotate, hN]
      · intro n h1 h2
        rw [List.get_map, List.get_rotate, List.get_map]
        rw [List.get_range]
        have hmod : (rr + n) % es.length < es.length :=
          Nat.mod_lt _ (by rw [hN]; exact hpos)
        rw [List.getD_eq_get es default hmod]
        congr 2
        simp [Nat.add_comm]
    rw [key]
    exact List.rotate_perm _ rr
  · rw [cycleNext_allNormal es rr hnorm hne]

/-- Two NORMAL entities used as scheduler witnesses. -/
def wEntities : List HafeleLightEntity := [initEntity 1, initEntity 2]

/-- Witness for C5: two NORMAL entities polled over two cycles starting at
cursor 0 — each address is polled exactly once and the cursor advances. -/
theorem rotational_round_robin_fairness_witness :
    List.Perm (polledAddrs (runCycles wEntities 0 2))
        (wEntities.map HafeleLightEntity.device_addr)
    ∧ (cycleNext wEntities 0).2 = 0 + 1 :=
  rotational_round_robin_fairness wEntities 0 2 rfl (by norm_num) (by decide)

theorem polledAddrs_highTrace (hs : List HafeleLightEntity) :
    polledAddrs (highTrace hs) = hs.map HafeleLightEntity.device_addr := by
  induction hs with
  | nil => rfl
  | cons e t ih =>
      show polledAddrs (PollEvent.poll e.device_addr
        :: PollEvent.resetPriority e.device_addr :: PollEvent.sleep :: highTrace t) = _
      rw [show polledAddrs (PollEvent.poll e.device_addr
          :: PollEvent.resetPriority e.device_addr :: PollEvent.sleep :: highTrace t)
        = e.device_addr :: polledAddrs (highTrace t) from rfl]
      rw [ih]
      rfl

theorem highTrace_decomp (hs : List HafeleLightEntity) (a : ℕ)
    (ha : a ∈ hs.map HafeleLightEntity.device_addr) :
    ∃ l r, highTrace hs
      = l ++ PollEvent.poll a :: PollEvent.resetPriority a :: r := by
  induction hs with
  | nil => simp at ha
  | cons e t ih =>
      rw [List.map_cons, List.mem_cons] at ha
      cases ha with
      | inl h =>
          refine ⟨[], PollEvent.sleep :: highTrace t, ?_⟩
          rw [h]
          rfl
      | inr h =>
          rcases ih h with ⟨l, r, hlr⟩
          refine ⟨PollEvent.poll e.device_addr :: PollEvent.resetPriority e.device_addr
            :: PollEvent.sleep :: l, r, ?_⟩
          show PollEvent.poll e.device_addr :: PollEvent.resetPriority e.device_addr
            :: PollEvent.sleep :: highTrace t = _
          rw [hlr]
          rfl

theorem normalSlot_polls (normals : List HafeleLightEntity) (rr : ℕ) (a : ℕ)
    (h : PollEvent.poll a ∈ normalSlot normals rr) :
    a ∈ normals.map HafeleLightEntity.device_addr := by
  unfold normalSlot at h
  by_cases hne : normals.isEmpty
  · rw [if_pos hne] at h
    simp at h
  · rw [if_neg hne] at h
    rw [List.mem_cons, List.mem_singleton] at h
    cases h with
    | inl h2 =>
        have ha : a = (normals.getD (rr % normals.length) default).device_addr := by
          injection h2
      -- the element at the cursor is a member of the NORMAL list
        have hne2 : normals ≠ [] := by
          intro hh
          subst hh
          exact hne rfl
        have hlen : rr % normals.length < normals.length :=
          Nat.mod_lt _ (List.length_pos.mpr hne2)
        rw [ha, List.getD_eq_get normals default hlen]
        exact List.mem_map_of_mem _ (List.get_mem normals (rr % normals.length) hlen)
    | inr h2 => cases h2

/-- Claim C6: in every outer iteration of the rotational polling loop, the
iteration's trace splits into a first segment polling exactly the entities
that were HIGH at partition time and a second segment whose polls are all
of NORMAL entities (HIGH is fully drained before any NORMAL poll); and
every HIGH entity's poll is immediately followed by its priority reset. -/
theorem high_priority_drained_first (es : List HafeleLightEntity) (rr : ℕ) :
    (∃ t1 t2, cycleTrace es rr = t1 ++ t2
      ∧ polledAddrs t1 = ((partitionHigh es).1).map HafeleLightEntity.device_addr
      ∧ ∀ a, PollEvent.poll a ∈ t2 →
          a ∈ ((partitionHigh es).2).map HafeleLightEntity.device_addr)
    ∧ (∀ a, a ∈ ((partitionHigh es).1).map HafeleLightEntity.device_addr →
        ∃ l r, cycleTrace es rr
          = l ++ PollEvent.poll a :: PollEvent.resetPriority a :: r) := by
  constructor
  · by_cases he : es.isEmpty
    · refine ⟨[], [PollEvent.sleep], ?_, ?_, ?_⟩
      · rw [cycleTrace, if_pos he]
        rfl
      · have : es = [] := List.isEmpty_iff.mp he
        rw [this]
        rfl
      · intro a hmem
        rw [List.mem_singleton] at hmem
        cases hmem
    · refine ⟨highTrace (partitionHigh es).1, normalSlot (partitionHigh es).2 rr, ?_,
        polledAddrs_highTrace _, fun a hmem => normalSlot_polls _ rr a hmem⟩
      rw [cycleTrace, if_neg he]
  · intro a ha
    rcases highTrace_decomp (partitionHigh es).1 a ha with ⟨l, r, hlr⟩
    by_cases he : es.isEmpty
    · exfalso
      have : es = [] := List.isEmpty_iff.mp he
      rw [this] at ha
      simp [partitionHigh] at ha
    · refine ⟨l, r ++ normalSlot (partitionHigh es).2 rr, ?_⟩
      rw [cycleTrace, if_neg he, hlr]
      simp

/-- One HIGH and one NORMAL entity used as scheduler witnesses. -/
def wMixedEntities : List HafeleLightEntity :=
  [⟨1, PollPriority.HIGH, none⟩, ⟨2, PollPriority.NORMAL, none⟩]

/-- Witness for C6: with one HIGH entity (address 1) and one NORMAL entity,
the iteration trace contains `poll 1` immediately followed by its priority
reset. -/
theorem high_priority_drained_first_witness :
    ∃ l r, cycleTrace wMixedEntities 0
      = l ++ PollEvent.poll 1 :: PollEvent.resetPriority 1 :: r :=
  (high_priority_drained_first wMixedEntities 0).2 1 (by decide)

theorem resetHighs_getD (es : List HafeleLightEntity) (i : ℕ) (hi : i < es.length) :
    (resetHighs es).getD i default
      = if (es.getD i default).priority = PollPriority.HIGH
        then { es.getD i default with priority := PollPriority.NORMAL }
        else es.getD i default := by
  induction es generalizing i with
  | nil => simp at hi
  | cons e t ih =>
      cases i with
      | zero => rfl
      | succ n => exact ih n (by simpa using hi)

/-- Claim C7: a light entity's priority starts NORMAL at construction;
immediately after a command-issuing operation (turn-on with or without
brightness, or turn-off) — whose spawned `force_manual_update` escalation
is included as the operation's final step — the priority reads HIGH; and
after the entity has been polled once as a HIGH entity in a rotational
cycle, its priority reads NORMAL again. -/
theorem priority_lifecycle :
    (∀ addr : ℕ, (initEntity addr).priority = PollPriority.NORMAL)
    ∧ (∀ (e : HafeleLightEntity) (b : Option ℕ),
        (async_turn_on e b).priority = PollPriority.HIGH)
    ∧ (∀ e : HafeleLightEntity, (async_turn_off e).priority = PollPriority.HIGH)
    ∧ (∀ (es : List HafeleLightEntity) (rr i : ℕ), i < es.length →
        (es.getD i default).priority = PollPriority.HIGH →
        (((cycleNext es rr).1).getD i default).priority = PollPriority.NORMAL) := by
  refine ⟨fun _ => rfl, fun e b => ?_, fun _ => rfl, ?_⟩
  · cases b <;> rfl
  · intro es rr i hi hh
    show ((resetHighs es).getD i default).priority = PollPriority.NORMAL
    rw [resetHighs_getD es i hi, if_pos hh]

/-- Witness for C7: a single HIGH entity polled in one rotational cycle
reads NORMAL afterwards. -/
theorem priority_lifecycle_witness :
    (((cycleNext [⟨7, PollPriority.HIGH, none⟩] 0).1).getD 0 default).priority
      = PollPriority.NORMAL :=
  priority_lifecycle.2.2.2 [⟨7, PollPriority.HIGH, none⟩] 0 0 (by norm_num) rfl
